import Mathlib

/-!
Verification of the Surya encoder image-processing pipeline
(`surya/common/donut/processor.py`, class `SuryaEncoderImageProcessor`).

Shallow embedding conventions:
* An n-d numpy array is an `NDArr`: a dtype tag plus a 3-level nested list
  of exact rational sample values.  For channel-last input images the
  nesting is height x width x channels; from `numpy_resize` on, the
  nesting is channels x height x width.  The rounding behaviour of
  float32/float64 is not modelled: the dtype field is bookkeeping for the
  numpy dtype attached to each buffer, values stay exact rationals.
* Python `assert` failures and library exceptions become `Except` errors,
  keeping the exception class (`AssertionError` vs `ValueError` vs
  `IndexError`) observable.
* External library calls (`cv2.resize`, `np.rot90`, `transformers` `pad`
  and `normalize`) are modelled from their documented contracts, see the
  doc comment of each definition.
-/

namespace Surya

/-- Exception classes observable from the pipeline: Python `assert`
failures, `ValueError` raised by the transformers helpers, and
`IndexError` from indexing an empty list. -/
inductive PErr where
  | assertionError
  | valueError
  | indexError
deriving DecidableEq

/-- The numpy dtypes that occur in the pipeline. -/
inductive DType where
  | uint8
  | float32
  | float64
deriving DecidableEq

/-- A numpy array: dtype tag plus 3-level nested list of exact rational
sample values.  Rounding of the float dtypes is not modelled. -/
structure NDArr where
  dtype : DType
  data : List (List (List ℚ))
deriving DecidableEq

instance : Inhabited NDArr := ⟨⟨DType.uint8, []⟩⟩

/-- The `size` dictionary `{"width": w, "height": h}` used throughout the
processor (`self.max_size`). -/
structure TargetSize where
  width : Nat
  height : Nat
deriving DecidableEq

/-- `a.shape[0]` of a 3-d array (number of outer entries). -/
def dim0 (a : NDArr) : Nat := a.data.length

/-- `a.shape[1]` of a 3-d array, read off the first outer entry. -/
def dim1 (a : NDArr) : Nat := (a.data.getD 0 []).length

/-- `a.shape[2]` of a 3-d array, read off the first entry of the first
outer entry. -/
def dim2 (a : NDArr) : Nat := ((a.data.getD 0 []).getD 0 []).length

/-- The array is rectangular with shape `(d0, d1, d2)`: numpy arrays are
always rectangular, nested lists only by this invariant. -/
def HasShape (a : NDArr) (d0 d1 d2 : Nat) : Prop :=
  a.data.length = d0 ∧ ∀ p ∈ a.data, p.length = d1 ∧ ∀ r ∈ p, r.length = d2

instance (a : NDArr) (d0 d1 d2 : Nat) : Decidable (HasShape a d0 d1 d2) := by
  unfold HasShape; infer_instance

/-! ### External enum values and library constants

cv2 interpolation flags (from OpenCV `InterpolationFlags`) and the value
of the PIL resampling enum member used by the processor; mixing the two
namespaces is exactly what the source does, so both are embedded as the
plain integers the libraries see. -/

def cv2_INTER_NEAREST : Nat := 0
def cv2_INTER_LINEAR : Nat := 1
def cv2_INTER_CUBIC : Nat := 2
def cv2_INTER_AREA : Nat := 3
def cv2_INTER_LANCZOS4 : Nat := 4

/-- `PIL.Image.Resampling.BILINEAR` has enum value 2. -/
def Image_Resampling_BILINEAR : Nat := 2

/-- `transformers.utils.IMAGENET_STANDARD_MEAN = [0.5, 0.5, 0.5]`
(the ImageNet *standard* constants in transformers are the 0.5 triples;
the 0.485/0.456/0.406 triple is `IMAGENET_DEFAULT_MEAN`). -/
def IMAGENET_STANDARD_MEAN : List ℚ := [1/2, 1/2, 1/2]

/-- `transformers.utils.IMAGENET_STANDARD_STD = [0.5, 0.5, 0.5]`. -/
def IMAGENET_STANDARD_STD : List ℚ := [1/2, 1/2, 1/2]

/-- Modelled from the spec: `surya.settings.settings.RECOGNITION_PAD_VALUE`
is not under src/; the source comment says padding uses 255 (whitespace)
and the spec describes the fill as a near-white document-background
value, so the externally configured constant is modelled as 255. -/
def RECOGNITION_PAD_VALUE : ℚ := 255

/-- The default of the `interpolation` parameter of `numpy_resize`
(`interpolation=cv2.INTER_LANCZOS4` in the def line). -/
def numpy_resize_default_interpolation : Nat := cv2_INTER_LANCZOS4

/-! ### np.rot90 -/

/-- `np.rot90(m, 1)` on the first two axes: one quarter turn in the
counter-clockwise direction, `out[i][j] = m[j][w - 1 - i]` where `w` is
the row length; numpy implements it as a transpose composed with a flip,
which has the same index semantics on the rectangular arrays numpy
stores.  Entries (the pixels) move as units. -/
def rot90 (m : List (List (List ℚ))) : List (List (List ℚ)) :=
  (List.range (m.getD 0 []).length).reverse.map
    (fun j => m.map (fun row => row.getD j []))

/-- `np.rot90(m, k)`: `k` successive counter-clockwise quarter turns. -/
def np_rot90 (m : List (List (List ℚ))) (k : Nat) : List (List (List ℚ)) :=
  rot90^[k] m

/-- A single quarter turn in the clockwise direction,
`out[i][j] = m[h - 1 - j][i]`: the reference rotation the spec language
is compared against (reverse each column). -/
def rot90cw (m : List (List (List ℚ))) : List (List (List ℚ)) :=
  (List.range (m.getD 0 []).length).map
    (fun j => (m.map (fun row => row.getD j [])).reverse)

/-! ### The processor -/

/-- The configuration state set up by `SuryaEncoderImageProcessor.__init__`:
`self.max_size`, `self.do_align_long_axis`, `self.resample`,
`self.rescale_factor`, `self.image_mean`, `self.image_std`. -/
structure SuryaProc where
  max_size : TargetSize
  do_align_long_axis : Bool
  resample : Nat
  rescale_factor : ℚ
  image_mean : List ℚ
  image_std : List ℚ
deriving DecidableEq

/-- `__init__`: an absent keyword argument is `none` (for
`rescale_factor` the Python default `1 / 255`, for `image_mean` and
`image_std` the Python default `None`, replaced in the body by the
ImageNet standard constants).  `self.resample` is unconditionally set to
`Image.Resampling.BILINEAR`. -/
def SuryaProc.init (max_size : TargetSize) (align_long_axis : Bool)
    (rescale_factor : Option ℚ) (image_mean : Option (List ℚ))
    (image_std : Option (List ℚ)) : SuryaProc :=
  { max_size := max_size
    do_align_long_axis := align_long_axis
    resample := Image_Resampling_BILINEAR
    rescale_factor := rescale_factor.getD (1/255)
    image_mean := image_mean.getD IMAGENET_STANDARD_MEAN
    image_std := image_std.getD IMAGENET_STANDARD_STD }

/-- `cv2.resize(image, (max_width, max_height), interpolation)` modelled
from the cv2 contract: the output is a `height x width` channel-last
array with the channel count and dtype of the input.  The interpolation
kernels themselves are outside the embedding (their arithmetic is
irrelevant to every claim); the content is fixed as nearest-index
sampling and the `interpolation` flag is recorded so call sites document
which kernel they request.  `c` is read off the first pixel as numpy
reads the shape. -/
def cv2_resize (image : NDArr) (width height : Nat) (interpolation : Nat) :
    NDArr :=
  let h := dim0 image
  let w := dim1 image
  let c := dim2 image
  let _flag := interpolation
  ⟨image.dtype,
    (List.range height).map (fun i =>
      (List.range width).map (fun j =>
        (((image.data.getD (i * h / height) []).getD (j * w / width) []).takeD c 0)))⟩

/-- `resized_image.transpose(2, 0, 1)`: channel-last `h x w x c` to
channel-first `c x h x w`, `out[ch][i][j] = in[i][j][ch]`. -/
def transpose_2_0_1 (a : NDArr) : NDArr :=
  ⟨a.dtype,
    (List.range (dim2 a)).map (fun ch =>
      a.data.map (fun row => row.map (fun px => px.getD ch 0)))⟩

/-- `SuryaEncoderImageProcessor.numpy_resize`: resize to exactly
`(size.width, size.height)` with the given cv2 interpolation flag, then
transpose to channel-first. -/
def numpy_resize (image : NDArr) (size : TargetSize) (interpolation : Nat) :
    NDArr :=
  transpose_2_0_1 (cv2_resize image size.width size.height interpolation)

/-- One channel plane padded with `pad_top`/`pad_bottom` constant rows and
`pad_left`/`pad_right` constant columns, the constant-mode `np.pad` that
`transformers.image_transforms.pad` performs on the height and width axes
of a channel-first array.  `input_width` is the width numpy reports for
the (rectangular) array. -/
def padPlane (pad_top pad_bottom pad_left pad_right : Nat) (v : ℚ)
    (input_width : Nat) (plane : List (List ℚ)) : List (List ℚ) :=
  List.replicate pad_top (List.replicate (pad_left + input_width + pad_right) v)
    ++ plane.map (fun row =>
        List.replicate pad_left v ++ row ++ List.replicate pad_right v)
    ++ List.replicate pad_bottom (List.replicate (pad_left + input_width + pad_right) v)

/-- `SuryaEncoderImageProcessor.pad_image` on a channel-first array:
`get_image_size` reads `(input_height, input_width)` from axes 1 and 2,
the deltas to the target are asserted nonnegative (`assert delta_width
>= 0 and delta_height >= 0`, here phrased as the equivalent comparisons
on `Nat`), the split of each delta is floor-half to the top/left and the
remainder to the bottom/right, and the padding is applied per channel
plane. -/
def pad_image (image : NDArr) (size : TargetSize) (pad_value : ℚ) :
    Except PErr NDArr :=
  let output_height := size.height
  let output_width := size.width
  let input_height := dim1 image
  let input_width := dim2 image
  if input_width ≤ output_width ∧ input_height ≤ output_height then
    let delta_width := output_width - input_width
    let delta_height := output_height - input_height
    let pad_top := delta_height / 2
    let pad_left := delta_width / 2
    let pad_bottom := delta_height - pad_top
    let pad_right := delta_width - pad_left
    Except.ok ⟨image.dtype,
      image.data.map (padPlane pad_top pad_bottom pad_left pad_right pad_value input_width)⟩
  else Except.error PErr.assertionError

/-- `SuryaEncoderImageProcessor.align_long_axis`: read
`(input_height, input_width)` from the first two axes and rotate by
`np.rot90(image, 3)` exactly when the target and the image have opposite
strict aspect classes. -/
def align_long_axis (image : NDArr) (size : TargetSize) : NDArr :=
  let input_height := dim0 image
  let input_width := dim1 image
  let output_height := size.height
  let output_width := size.width
  if (output_width < output_height ∧ input_height < input_width) ∨
      (output_height < output_width ∧ input_width < input_height) then
    ⟨image.dtype, np_rot90 image.data 3⟩
  else image

/-- `img.astype(dt)`: retag the dtype (values stay exact, rounding is not
modelled). -/
def astype (dt : DType) (a : NDArr) : NDArr := ⟨dt, a.data⟩

/-- Multiplication of an array by a scalar (numpy broadcasting); the
dtype of an array-scalar product with a Python float on a float64 array
stays float64. -/
def scalarMul (c : ℚ) (a : NDArr) : NDArr :=
  ⟨a.dtype, a.data.map (fun p => p.map (fun r => r.map (fun x => x * c)))⟩

/-- The rescale statement of `process_inner`:
`(img.astype(np.float64) * self.rescale_factor).astype(np.float32)`. -/
def rescaleStep (factor : ℚ) (a : NDArr) : NDArr :=
  astype DType.float32 (scalarMul factor (astype DType.float64 a))

/-- `transformers.image_transforms.normalize` on a channel-first array:
a non-float input is first cast to float32; the per-channel `mean` and
`std` must have exactly `num_channels = image.shape[0]` entries, else a
`ValueError` is raised; the result is `(image - mean) / std` per
channel. -/
def normalize (image : NDArr) (mean std : List ℚ) : Except PErr NDArr :=
  let dt := if image.dtype = DType.uint8 then DType.float32 else image.dtype
  let num_channels := dim0 image
  if mean.length ≠ num_channels then Except.error PErr.valueError
  else if std.length ≠ num_channels then Except.error PErr.valueError
  else Except.ok ⟨dt,
    (image.data.zip (mean.zip std)).map (fun pms =>
      pms.1.map (fun row => row.map (fun x => (x - pms.2.1) / pms.2.2)))⟩

/-- A Python list comprehension whose body can raise: evaluate in order,
propagating the first exception. -/
def mapExcept (f : α → Except PErr β) : List α → Except PErr (List β)
  | [] => Except.ok []
  | a :: l =>
    match f a with
    | Except.error e => Except.error e
    | Except.ok b =>
      match mapExcept f l with
      | Except.error e => Except.error e
      | Except.ok bs => Except.ok (b :: bs)

/-- The tail of `process_inner` after the alignment block: resize every
image (with `self.resample` as the interpolation flag), assert the first
resized image is channel-first RGB, cast to float32, pad every image to
`self.max_size` with the whitespace fill, rescale through float64 back
to float32, and normalize with the configured statistics. -/
def resizeToNormalize (proc : SuryaProc) (images : List NDArr) :
    Except PErr (List NDArr) :=
  let images2 := images.map (fun img => numpy_resize img proc.max_size proc.resample)
  if dim0 (images2.headD default) ≠ 3 then Except.error PErr.assertionError
  else
    let images3 := images2.map (fun img => astype DType.float32 img)
    match mapExcept (fun image =>
        pad_image image proc.max_size RECOGNITION_PAD_VALUE) images3 with
    | Except.error e => Except.error e
    | Except.ok images4 =>
      let images5 := images4.map (fun img =>
        astype DType.float32 (scalarMul proc.rescale_factor (astype DType.float64 img)))
      mapExcept (fun img => normalize img proc.image_mean proc.image_std) images5

/-- `SuryaEncoderImageProcessor.process_inner`: assert the first image is
channel-last RGB (`assert images[0].shape[2] == 3`; an empty batch would
already fail the indexing); when `self.do_align_long_axis` is set, align
every image and assert every aligned image satisfies
`img.shape[1] >= img.shape[0]`; then run the resize/pad/rescale/normalize
tail. -/
def process_inner (proc : SuryaProc) (images : List NDArr) :
    Except PErr (List NDArr) :=
  match images with
  | [] => Except.error PErr.indexError
  | img0 :: _ =>
    if dim2 img0 ≠ 3 then Except.error PErr.assertionError
    else if proc.do_align_long_axis then
      let aligned := images.map (fun image => align_long_axis image proc.max_size)
      if aligned.all (fun img => dim0 img ≤ dim1 img) then
        resizeToNormalize proc aligned
      else Except.error PErr.assertionError
    else resizeToNormalize proc images

/-! ### Helper lemmas -/

lemma mapExcept_cons_ok {f : α → Except PErr β} {a : α} {l : List α}
    {out : List β} (h : mapExcept f (a :: l) = Except.ok out) :
    ∃ b out2, out = b :: out2 ∧ f a = Except.ok b ∧
      mapExcept f l = Except.ok out2 := by
  unfold mapExcept at h
  cases hfa : f a with
  | error e => rw [hfa] at h; simp at h
  | ok b =>
    rw [hfa] at h
    cases hml : mapExcept f l with
    | error e => rw [hml] at h; simp at h
    | ok bs =>
      rw [hml] at h
      refine ⟨b, bs, ?_, rfl, rfl⟩
      cases h; rfl

lemma mapExcept_ok_mem {f : α → Except PErr β} :
    ∀ {l : List α} {out : List β}, mapExcept f l = Except.ok out →
      ∀ b ∈ out, ∃ a ∈ l, f a = Except.ok b := by
  intro l
  induction l with
  | nil =>
    intro out h b hb
    unfold mapExcept at h
    cases h
    simp at hb
  | cons a l ih =>
    intro out h b hb
    obtain ⟨b0, out2, rfl, hfa, hrest⟩ := mapExcept_cons_ok h
    rcases List.mem_cons.mp hb with rfl | hb2
    · exact ⟨a, List.mem_cons_self a l, hfa⟩
    · obtain ⟨a2, ha2, hfa2⟩ := ih hrest b hb2
      exact ⟨a2, List.mem_cons_of_mem a ha2, hfa2⟩

lemma mapExcept_ok_forall {f : α → Except PErr β} :
    ∀ {l : List α} {out : List β}, mapExcept f l = Except.ok out →
      ∀ a ∈ l, ∃ b ∈ out, f a = Except.ok b := by
  intro l
  induction l with
  | nil => intro out h a ha; simp at ha
  | cons a0 l ih =>
    intro out h a ha
    obtain ⟨b0, out2, rfl, hfa, hrest⟩ := mapExcept_cons_ok h
    rcases List.mem_cons.mp ha with rfl | ha2
    · exact ⟨b0, List.mem_cons_self b0 out2, hfa⟩
    · obtain ⟨b2, hb2, hfb2⟩ := ih hrest a ha2
      exact ⟨b2, List.mem_cons_of_mem b0 hb2, hfb2⟩

/-- The resized array is rectangular with `size.height` rows of
`size.width` pixels per plane, one plane per measured channel. -/
lemma numpy_resize_hasShape (image : NDArr) (size : TargetSize)
    (interpolation : Nat) :
    HasShape (numpy_resize image size interpolation)
      (dim0 (numpy_resize image size interpolation)) size.height size.width := by
  unfold numpy_resize transpose_2_0_1 cv2_resize HasShape
  refine ⟨rfl, ?_⟩
  intro p hp
  simp only [List.mem_map] at hp
  obtain ⟨ch, -, rfl⟩ := hp
  refine ⟨by simp, ?_⟩
  intro r hr
  simp only [List.mem_map] at hr
  obtain ⟨row, hrow, rfl⟩ := hr
  simp only [List.mem_map, List.mem_range] at hrow
  obtain ⟨i, -, rfl⟩ := hrow
  simp

lemma astype_dim0 (dt : DType) (a : NDArr) : dim0 (astype dt a) = dim0 a := rfl

lemma astype_hasShape {a : NDArr} {d0 d1 d2 : Nat} (dt : DType)
    (h : HasShape a d0 d1 d2) : HasShape (astype dt a) d0 d1 d2 := h

lemma scalarMul_dim0 (c : ℚ) (a : NDArr) : dim0 (scalarMul c a) = dim0 a := by
  simp [scalarMul, dim0]

lemma scalarMul_hasShape {a : NDArr} {d0 d1 d2 : Nat} (c : ℚ)
    (h : HasShape a d0 d1 d2) : HasShape (scalarMul c a) d0 d1 d2 := by
  obtain ⟨h0, hp⟩ := h
  refine ⟨by simpa [scalarMul] using h0, ?_⟩
  intro p hmem
  simp only [scalarMul, List.mem_map] at hmem
  obtain ⟨p0, hp0, rfl⟩ := hmem
  obtain ⟨hlen, hrow⟩ := hp p0 hp0
  refine ⟨by simpa using hlen, ?_⟩
  intro r hr
  simp only [List.mem_map] at hr
  obtain ⟨r0, hr0, rfl⟩ := hr
  simpa using hrow r0 hr0

lemma rescaleStep_dim0 (f : ℚ) (a : NDArr) :
    dim0 (rescaleStep f a) = dim0 a := by
  simp [rescaleStep, astype_dim0, scalarMul_dim0]

lemma rescaleStep_hasShape {a : NDArr} {d0 d1 d2 : Nat} (f : ℚ)
    (h : HasShape a d0 d1 d2) : HasShape (rescaleStep f a) d0 d1 d2 :=
  astype_hasShape _ (scalarMul_hasShape _ (astype_hasShape _ h))

lemma pad_image_ok_dim0 {image : NDArr} {size : TargetSize} {v : ℚ}
    {out : NDArr} (h : pad_image image size v = Except.ok out) :
    dim0 out = dim0 image := by
  rw [pad_image] at h
  split at h
  · cases h; simp [dim0]
  · simp at h

lemma pad_image_ok_dtype {image : NDArr} {size : TargetSize} {v : ℚ}
    {out : NDArr} (h : pad_image image size v = Except.ok out) :
    out.dtype = image.dtype := by
  rw [pad_image] at h
  split at h
  · cases h; rfl
  · simp at h

lemma dim1_eq_of_hasShape {a : NDArr} {c h w : Nat} (hs : HasShape a c h w)
    (hc : 1 ≤ c) : dim1 a = h := by
  obtain ⟨h0, hp⟩ := hs
  cases hd : a.data with
  | nil => rw [hd] at h0; simp at h0; omega
  | cons p rest =>
    have : p ∈ a.data := by rw [hd]; exact List.mem_cons_self p rest
    have := (hp p this).1
    simp [dim1, hd, this]

lemma dim2_eq_of_hasShape {a : NDArr} {c h w : Nat} (hs : HasShape a c h w)
    (hc : 1 ≤ c) (hh : 1 ≤ h) : dim2 a = w := by
  obtain ⟨h0, hp⟩ := hs
  cases hd : a.data with
  | nil => rw [hd] at h0; simp at h0; omega
  | cons p rest =>
    have hpmem : p ∈ a.data := by rw [hd]; exact List.mem_cons_self p rest
    obtain ⟨hplen, hrow⟩ := hp p hpmem
    cases hr : p with
    | nil => rw [hr] at hplen; simp at hplen; omega
    | cons r rrest =>
      have : r ∈ p := by rw [hr]; exact List.mem_cons_self r rrest
      have := hrow r this
      simp [dim2, hd, hr, this]

lemma pad_image_eq_ok {image : NDArr} {size : TargetSize} {v : ℚ}
    (hw : dim2 image ≤ size.width) (hh : dim1 image ≤ size.height) :
    pad_image image size v = Except.ok ⟨image.dtype,
      image.data.map (padPlane ((size.height - dim1 image) / 2)
        ((size.height - dim1 image) - (size.height - dim1 image) / 2)
        ((size.width - dim2 image) / 2)
        ((size.width - dim2 image) - (size.width - dim2 image) / 2)
        v (dim2 image))⟩ := by
  rw [pad_image]
  rw [if_pos ⟨hw, hh⟩]

lemma pad_image_error {image : NDArr} {size : TargetSize} {v : ℚ}
    (h : ¬(dim2 image ≤ size.width ∧ dim1 image ≤ size.height)) :
    pad_image image size v = Except.error PErr.assertionError := by
  rw [pad_image]
  rw [if_neg h]

lemma pad_image_ok_cond {image : NDArr} {size : TargetSize} {v : ℚ}
    {out : NDArr} (h : pad_image image size v = Except.ok out) :
    dim2 image ≤ size.width ∧ dim1 image ≤ size.height := by
  by_contra hc
  rw [pad_image_error hc] at h
  simp at h

lemma pad_image_ok_shape {image out : NDArr} {size : TargetSize} {v : ℚ}
    {c h w : Nat} (hs : HasShape image c h w) (hc : 1 ≤ c)
    (hok : pad_image image size v = Except.ok out) :
    HasShape out c size.height size.width := by
  obtain ⟨hw2, hh2⟩ := pad_image_ok_cond hok
  have hih : dim1 image = h := dim1_eq_of_hasShape hs hc
  rw [pad_image_eq_ok hw2 hh2] at hok
  cases hok
  obtain ⟨h0, hp⟩ := hs
  constructor
  · simpa using h0
  · intro p hpmem
    simp only [List.mem_map] at hpmem
    obtain ⟨p0, hp0, rfl⟩ := hpmem
    obtain ⟨hplen, hrow⟩ := hp p0 hp0
    constructor
    · simp only [padPlane, List.length_append, List.length_replicate,
        List.length_map, hplen]
      omega
    · intro r hr
      simp only [padPlane, List.mem_append, List.mem_replicate,
        List.mem_map] at hr
      rcases hr with (hr | ⟨r0, hr0, rfl⟩) | hr
      · rcases hr with ⟨-, rfl⟩
        simp only [List.length_replicate]
        omega
      · have hr0len := hrow r0 hr0
        have hweq : dim2 image = w := by
          rcases Nat.eq_zero_or_pos h with h0h | hpos
          · rw [h0h] at hplen
            simp only [List.length_eq_zero] at hplen
            rw [hplen] at hr0
            simp at hr0
          · exact dim2_eq_of_hasShape ⟨h0, hp⟩ hc hpos
        simp only [List.length_append, List.length_replicate, hr0len, hweq]
        omega
      · rcases hr with ⟨-, rfl⟩
        simp only [List.length_replicate]
        omega

lemma normalize_ok_inv {image : NDArr} {mean std : List ℚ} {out : NDArr}
    (h : normalize image mean std = Except.ok out) :
    mean.length = dim0 image ∧ std.length = dim0 image ∧
    out.dtype = (if image.dtype = DType.uint8 then DType.float32
      else image.dtype) ∧
    out.data = (image.data.zip (mean.zip std)).map (fun pms =>
      pms.1.map (fun row => row.map (fun x => (x - pms.2.1) / pms.2.2))) := by
  rw [normalize] at h
  split at h
  · simp at h
  · split at h
    · simp at h
    · cases h
      refine ⟨by omega, by omega, rfl, rfl⟩

lemma normalize_ok_shape {image out : NDArr} {mean std : List ℚ}
    {c h w : Nat} (hok : normalize image mean std = Except.ok out)
    (hs : HasShape image c h w) : HasShape out c h w := by
  obtain ⟨hm, hstd, -, hdata⟩ := normalize_ok_inv hok
  obtain ⟨h0, hp⟩ := hs
  constructor
  · rw [hdata]
    simp only [List.length_map, List.length_zip, h0]
    rw [dim0] at hm hstd
    omega
  · intro p hpmem
    rw [hdata] at hpmem
    simp only [List.mem_map] at hpmem
    obtain ⟨pms, hpms, rfl⟩ := hpmem
    obtain ⟨hlen, hrow⟩ := hp pms.1 (List.of_mem_zip hpms).1
    refine ⟨by simpa using hlen, ?_⟩
    intro r hr
    simp only [List.mem_map] at hr
    obtain ⟨r0, hr0, rfl⟩ := hr
    simpa using hrow r0 hr0

lemma rot90_length (m : List (List (List ℚ))) :
    (rot90 m).length = (m.getD 0 []).length := by
  simp [rot90]

lemma rot90_getElem_eq (m : List (List (List ℚ))) (i : Nat)
    (hi : i < (rot90 m).length) :
    (rot90 m)[i]
      = m.map (fun row => row.getD ((m.getD 0 []).length - 1 - i) []) := by
  rw [rot90_length] at hi
  unfold rot90
  rw [List.getElem_map]
  congr 1
  rw [List.getElem_reverse]
  rw [List.getElem_range]
  simp

lemma rot90_getD (m : List (List (List ℚ))) (i : Nat)
    (hi : i < (m.getD 0 []).length) :
    (rot90 m).getD i []
      = m.map (fun row => row.getD ((m.getD 0 []).length - 1 - i) []) := by
  have hlen : i < (rot90 m).length := by rw [rot90_length]; exact hi
  rw [List.getD_eq_getElem _ _ hlen]
  exact rot90_getElem_eq m i hlen

lemma rot90_measured (m : List (List (List ℚ)))
    (hw : 1 ≤ (m.getD 0 []).length) :
    ((rot90 m).getD 0 []).length = m.length := by
  rw [rot90_getD m 0 hw]
  simp

lemma np_rot90_three (m : List (List (List ℚ))) :
    np_rot90 m 3 = rot90 (rot90 (rot90 m)) := rfl

set_option maxHeartbeats 1600000 in
/-- Three successive counter-clockwise quarter turns of a rectangular
grid are one clockwise quarter turn. -/
lemma rot90_three_eq_rot90cw (m : List (List (List ℚ))) (w : Nat)
    (hrect : ∀ row ∈ m, row.length = w) (hne : m ≠ []) :
    rot90 (rot90 (rot90 m)) = rot90cw m := by
  have hh : 1 ≤ m.length := List.length_pos.mpr hne
  have hw0 : (m.getD 0 []).length = w := by
    cases hm : m with
    | nil => exact absurd hm hne
    | cons r0 rest =>
      have : r0 ∈ m := by rw [hm]; exact List.mem_cons_self r0 rest
      simp [hm, hrect r0 this]
  rcases Nat.eq_zero_or_pos w with rfl | hwpos
  · -- zero-width grid: every rotation and the clockwise turn are empty
    have h1 : rot90 m = [] := by
      unfold rot90
      rw [hw0]
      simp
    rw [h1]
    have h2 : rot90 ([] : List (List (List ℚ))) = [] := by
      unfold rot90; simp
    rw [h2, h2]
    unfold rot90cw
    rw [hw0]
    simp
  · have hm1len : (rot90 m).length = w := by rw [rot90_length, hw0]
    have hm1meas : ((rot90 m).getD 0 []).length = m.length :=
      rot90_measured m (by omega)
    have hm2len : (rot90 (rot90 m)).length = m.length := by
      rw [rot90_length, hm1meas]
    have hm2meas : ((rot90 (rot90 m)).getD 0 []).length = w := by
      rw [rot90_measured (rot90 m) (by omega), hm1len]
    have hm3len : (rot90 (rot90 (rot90 m))).length = w := by
      rw [rot90_length, hm2meas]
    have hcwlen : (rot90cw m).length = w := by
      unfold rot90cw; rw [hw0]; simp
    apply List.ext_getElem (by rw [hm3len, hcwlen])
    intro i hi1 hi2
    have hiw : i < w := by rw [hm3len] at hi1; exact hi1
    -- the i-th row of the triple rotation
    have hrow3 : (rot90 (rot90 (rot90 m)))[i]
        = (rot90 (rot90 m)).map (fun r => r.getD (w - 1 - i) []) := by
      rw [rot90_getElem_eq _ _ hi1, hm2meas]
    -- the i-th row of the clockwise turn
    have hrowcw : (rot90cw m)[i]
        = (m.map (fun row => row.getD i [])).reverse := by
      unfold rot90cw
      rw [List.getElem_map]
      congr 2
      rw [List.getElem_range]
    rw [hrow3, hrowcw]
    apply List.ext_getElem (by simp [hm2len])
    intro k hk1 hk2
    have hkh : k < m.length := by simpa [hm2len] using hk1
    have hget2 : (rot90 (rot90 m))[k]
        = (rot90 m).map (fun r => r.getD (m.length - 1 - k) []) := by
      rw [rot90_getElem_eq _ _ (by rw [hm2len]; exact hkh), hm1meas]
    rw [List.getElem_map, hget2]
    have hwin : w - 1 - i < (rot90 m).length := by rw [hm1len]; omega
    rw [List.getD_eq_getElem _ _ (by simpa using hwin)]
    rw [List.getElem_map]
    have hget1 : (rot90 m)[w - 1 - i]
        = m.map (fun row => row.getD (w - 1 - (w - 1 - i)) []) := by
      rw [rot90_getElem_eq _ _ hwin, hw0]
    rw [hget1]
    have hidx : w - 1 - (w - 1 - i) = i := by omega
    rw [hidx]
    have hmlk : m.length - 1 - k < m.length := by omega
    rw [List.getD_eq_getElem _ _ (by simpa using hmlk)]
    rw [List.getElem_map]
    rw [List.getElem_reverse]
    rw [List.getElem_map]
    congr 2
    all_goals simp

lemma dim2_rot90cw {m : List (List (List ℚ))} {h w c : Nat}
    (hm : m.length = h)
    (hrect : ∀ row ∈ m, row.length = w ∧ ∀ px ∈ row, px.length = c)
    (hh : 1 ≤ h) (hw : 1 ≤ w) :
    (((rot90cw m).getD 0 []).getD 0 []).length = c := by
  have hne : m ≠ [] := by intro hnil; rw [hnil] at hm; simp at hm; omega
  have hw0 : (m.getD 0 []).length = w := by
    cases hd : m with
    | nil => exact absurd hd hne
    | cons r0 rest =>
      have : r0 ∈ m := by rw [hd]; exact List.mem_cons_self r0 rest
      simp [hd, (hrect r0 this).1]
  have hrow0 : (rot90cw m).getD 0 []
      = (m.map (fun row => row.getD 0 [])).reverse := by
    have hb : 0 < ((List.range ((m.getD 0 []).length)).map
        (fun j => (m.map (fun row => row.getD j [])).reverse)).length := by
      rw [List.length_map, List.length_range, hw0]; omega
    unfold rot90cw
    rw [List.getD_eq_getElem _ _ hb]
    rw [List.getElem_map, List.getElem_range]
  rw [hrow0]
  have hb2 : 0 < (m.map (fun row => row.getD 0 [])).reverse.length := by
    simp [hm]; omega
  rw [List.getD_eq_getElem _ _ hb2]
  rw [List.getElem_reverse, List.getElem_map]
  have hidx : (m.map fun row => row.getD 0 []).length - 1 - 0 < m.length := by
    simp [hm]; omega
  simp only [List.length_map] at hidx ⊢
  have hmem := List.getElem_mem hidx
  obtain ⟨hrw, hpx⟩ := hrect _ hmem
  have hb3 : 0 < (m[m.length - 1 - 0]).length := by rw [hrw]; omega
  rw [List.getD_eq_getElem _ _ hb3]
  exact hpx _ (List.getElem_mem _)

/-- The alignment stage preserves the measured channel count of a
rectangular image. -/
lemma dim2_align_long_axis {img : NDArr} {h w c : Nat}
    (hs : HasShape img h w c) (hh : 1 ≤ h) (hw : 1 ≤ w)
    (size : TargetSize) : dim2 (align_long_axis img size) = c := by
  have hid : dim2 img = c := dim2_eq_of_hasShape hs (by omega) (by omega)
  simp only [align_long_axis]
  split
  · obtain ⟨h0, hp⟩ := hs
    have hne : img.data ≠ [] := by
      intro hnil; rw [hnil] at h0; simp at h0; omega
    have hrect : ∀ row ∈ img.data, row.length = w := fun row hr => (hp row hr).1
    show dim2 ⟨img.dtype, np_rot90 img.data 3⟩ = c
    rw [dim2]
    show (((np_rot90 img.data 3).getD 0 []).getD 0 []).length = c
    rw [np_rot90_three, rot90_three_eq_rot90cw img.data w hrect hne]
    exact dim2_rot90cw h0 hp hh hw
  · exact hid

lemma dim0_numpy_resize (img : NDArr) (size : TargetSize) (interp : Nat) :
    dim0 (numpy_resize img size interp)
      = dim2 (cv2_resize img size.width size.height interp) := by
  simp [numpy_resize, transpose_2_0_1, dim0]

lemma dim2_cv2_resize_pos (img : NDArr) {width height : Nat} (interp : Nat)
    (hw : 1 ≤ width) (hh : 1 ≤ height) :
    dim2 (cv2_resize img width height interp) = dim2 img := by
  unfold cv2_resize dim2
  obtain ⟨h2, hh2⟩ := Nat.exists_eq_add_of_le hh
  obtain ⟨w2, hw2⟩ := Nat.exists_eq_add_of_le hw
  subst hh2
  subst hw2
  simp [List.range_succ_eq_map]

lemma dim2_cv2_resize_zero (img : NDArr) {width height : Nat} (interp : Nat)
    (h : width = 0 ∨ height = 0) :
    dim2 (cv2_resize img width height interp) = 0 := by
  unfold cv2_resize dim2
  rcases h with rfl | rfl
  · cases height with
    | zero => simp
    | succ n => simp [List.range_succ_eq_map]
  · simp

/-- Inversion of a successful `process_inner` run: the batch is nonempty,
the first image passed the channel assert, and the resize tail succeeded
on the (possibly aligned) batch. -/
lemma process_inner_ok_inv {proc : SuryaProc} {images outs : List NDArr}
    (h : process_inner proc images = Except.ok outs) :
    ∃ images1, resizeToNormalize proc images1 = Except.ok outs ∧
      ((proc.do_align_long_axis = true ∧
        images1 = images.map (fun image => align_long_axis image proc.max_size)) ∨
       (proc.do_align_long_axis = false ∧ images1 = images)) ∧
      images ≠ [] := by
  cases images with
  | nil => simp [process_inner] at h
  | cons img0 rest =>
    simp only [process_inner] at h
    split at h
    · simp at h
    · split at h
      · split at h
        · refine ⟨(img0 :: rest).map (fun image => align_long_axis image proc.max_size),
            h, Or.inl ⟨by assumption, rfl⟩, by simp⟩
        · simp at h
      · refine ⟨img0 :: rest, h, Or.inr ⟨?_, rfl⟩, by simp⟩
        simp only [Bool.not_eq_true] at *
        assumption

/-- Inversion of a successful resize tail. -/
lemma resizeToNormalize_ok_inv {proc : SuryaProc} {images1 outs : List NDArr}
    (h : resizeToNormalize proc images1 = Except.ok outs) :
    dim0 ((images1.map (fun img =>
        numpy_resize img proc.max_size proc.resample)).headD default) = 3 ∧
    ∃ images4,
      mapExcept (fun image => pad_image image proc.max_size RECOGNITION_PAD_VALUE)
        ((images1.map (fun img => numpy_resize img proc.max_size proc.resample)).map
          (fun img => astype DType.float32 img)) = Except.ok images4 ∧
      mapExcept (fun img => normalize img proc.image_mean proc.image_std)
        (images4.map (fun img =>
          astype DType.float32 (scalarMul proc.rescale_factor
            (astype DType.float64 img)))) = Except.ok outs := by
  simp only [resizeToNormalize] at h
  split at h
  · simp at h
  · next hdim =>
    refine ⟨by omega, ?_⟩
    split at h
    · simp at h
    · next images4 hpad => exact ⟨images4, hpad, h⟩

lemma dim0_rescale_expr (f : ℚ) (b : NDArr) :
    dim0 (astype DType.float32 (scalarMul f (astype DType.float64 b))) = dim0 b := by
  simp [astype, scalarMul, dim0]

/-- In a successful run of the resize tail on a nonempty batch, the
configured per-channel mean has exactly 3 entries (forced by the RGB
assert on the first resized image and the success of `normalize`). -/
lemma resizeToNormalize_ok_mean_length {proc : SuryaProc}
    {images1 outs : List NDArr} (hne : images1 ≠ [])
    (h : resizeToNormalize proc images1 = Except.ok outs) :
    proc.image_mean.length = 3 := by
  obtain ⟨hhead, images4, hpad, hnorm⟩ := resizeToNormalize_ok_inv h
  cases images1 with
  | nil => exact absurd rfl hne
  | cons i1 r1 =>
    simp only [List.map_cons, List.headD_cons] at hhead hpad
    obtain ⟨b0, out4, rfl, hpad0, -⟩ := mapExcept_cons_ok hpad
    simp only [List.map_cons] at hnorm
    obtain ⟨o0, outs2, -, hnorm0, -⟩ := mapExcept_cons_ok hnorm
    have h1 := (normalize_ok_inv hnorm0).1
    rw [dim0_rescale_expr] at h1
    rw [pad_image_ok_dim0 hpad0] at h1
    rw [astype_dim0] at h1
    rw [hhead] at h1
    exact h1

/-- Every output of a successful resize tail is a float32 array of shape
`(3, max_size.height, max_size.width)`. -/
lemma resizeToNormalize_ok_out {proc : SuryaProc} {images1 outs : List NDArr}
    (hne : images1 ≠ [])
    (h : resizeToNormalize proc images1 = Except.ok outs) :
    ∀ o ∈ outs, o.dtype = DType.float32 ∧
      HasShape o 3 proc.max_size.height proc.max_size.width := by
  have hmean := resizeToNormalize_ok_mean_length hne h
  obtain ⟨hhead, images4, hpad, hnorm⟩ := resizeToNormalize_ok_inv h
  intro o ho
  obtain ⟨i5, hi5mem, hno⟩ := mapExcept_ok_mem hnorm o ho
  simp only [List.mem_map] at hi5mem
  obtain ⟨i4, hi4mem, rfl⟩ := hi5mem
  obtain ⟨i3, hi3mem, hpadok⟩ := mapExcept_ok_mem hpad i4 hi4mem
  simp only [List.mem_map] at hi3mem
  obtain ⟨i2, hi2, rfl⟩ := hi3mem
  obtain ⟨img1, -, rfl⟩ := hi2
  -- the measured channel count of this image is forced to 3
  have hc : dim0 (numpy_resize img1 proc.max_size proc.resample) = 3 := by
    have h1 := (normalize_ok_inv hno).1
    rw [dim0_rescale_expr, pad_image_ok_dim0 hpadok, astype_dim0] at h1
    omega
  have hshape2 := numpy_resize_hasShape img1 proc.max_size proc.resample
  rw [hc] at hshape2
  have hshape4 : HasShape i4 3 proc.max_size.height proc.max_size.width :=
    pad_image_ok_shape (astype_hasShape DType.float32 hshape2)
      (by omega) hpadok
  have hshape5 : HasShape (astype DType.float32 (scalarMul proc.rescale_factor
      (astype DType.float64 i4))) 3 proc.max_size.height proc.max_size.width :=
    astype_hasShape _ (scalarMul_hasShape _ (astype_hasShape _ hshape4))
  refine ⟨?_, normalize_ok_shape hno hshape5⟩
  have hdt := (normalize_ok_inv hno).2.2.1
  simpa [astype] using hdt

/-- In a successful run of the resize tail with a 3-entry mean, every
image of the batch resized to exactly 3 channel planes. -/
lemma resizeToNormalize_ok_forall_dim0 {proc : SuryaProc}
    {images1 outs : List NDArr}
    (h : resizeToNormalize proc images1 = Except.ok outs)
    (hmean : proc.image_mean.length = 3) :
    ∀ img1 ∈ images1,
      dim0 (numpy_resize img1 proc.max_size proc.resample) = 3 := by
  obtain ⟨-, images4, hpad, hnorm⟩ := resizeToNormalize_ok_inv h
  intro img1 h1
  have h3 : astype DType.float32 (numpy_resize img1 proc.max_size proc.resample)
      ∈ (images1.map (fun img => numpy_resize img proc.max_size proc.resample)).map
        (fun img => astype DType.float32 img) :=
    List.mem_map_of_mem _ (List.mem_map_of_mem _ h1)
  obtain ⟨i4, hi4, hpadok⟩ := mapExcept_ok_forall hpad _ h3
  have h5 : astype DType.float32 (scalarMul proc.rescale_factor
      (astype DType.float64 i4)) ∈ images4.map (fun img =>
        astype DType.float32 (scalarMul proc.rescale_factor
          (astype DType.float64 img))) :=
    List.mem_map_of_mem _ hi4
  obtain ⟨o, -, hno⟩ := mapExcept_ok_forall hnorm _ h5
  have hd := (normalize_ok_inv hno).1
  rw [dim0_rescale_expr, pad_image_ok_dim0 hpadok, astype_dim0] at hd
  omega

instance : DecidableEq (Except PErr (List NDArr)) := fun a b =>
  match a, b with
  | Except.error e, Except.error f =>
    if h : e = f then Decidable.isTrue (by rw [h])
    else Decidable.isFalse (by intro hc; cases hc; exact h rfl)
  | Except.error _, Except.ok _ => Decidable.isFalse (by intro hc; cases hc)
  | Except.ok _, Except.error _ => Decidable.isFalse (by intro hc; cases hc)
  | Except.ok x, Except.ok y =>
    if h : x = y then Decidable.isTrue (by rw [h])
    else Decidable.isFalse (by intro hc; cases hc; exact h rfl)

/-! ### Claims -/

/-- C1: whenever `process_inner` returns an output batch, every output is
a float32 array of shape `(3, target_height, target_width)`, for any
input batch and any configured target size; in particular all images of
an output batch have this identical shape. -/
theorem process_inner_shape_invariant (proc : SuryaProc)
    (images outs : List NDArr)
    (h : process_inner proc images = Except.ok outs) :
    ∀ o ∈ outs, o.dtype = DType.float32 ∧
      HasShape o 3 proc.max_size.height proc.max_size.width := by
  obtain ⟨images1, hrtn, hcase, hne⟩ := process_inner_ok_inv h
  have hne1 : images1 ≠ [] := by
    rcases hcase with ⟨-, rfl⟩ | ⟨-, rfl⟩
    · simpa using hne
    · exact hne
  exact resizeToNormalize_ok_out hne1 hrtn

/-- Witness for C1: a concrete 1x1 RGB image processed to the 1x1 target
with neutral statistics. -/
theorem process_inner_shape_invariant_witness :
    NDArr.dtype ⟨DType.float32, [[[5]],[[6]],[[7]]]⟩ = DType.float32 ∧
    HasShape ⟨DType.float32, [[[5]],[[6]],[[7]]]⟩ 3 1 1 :=
  process_inner_shape_invariant ⟨⟨1, 1⟩, false, 2, 1, [0, 0, 0], [1, 1, 1]⟩
    [⟨DType.uint8, [[[5, 6, 7]]]⟩] [⟨DType.float32, [[[5]],[[6]],[[7]]]⟩]
    (by simp [process_inner, resizeToNormalize, numpy_resize, cv2_resize,
      transpose_2_0_1, dim0, dim1, dim2, astype, mapExcept, pad_image,
      padPlane, scalarMul, normalize, List.range_succ])
    ⟨DType.float32, [[[5]],[[6]],[[7]]]⟩ (List.mem_singleton.mpr rfl)

/-- C2 counterexample: the configuration built by `__init__` does not
resize with the Lanczos flag: `self.resample` is the PIL BILINEAR enum
value 2, which as a cv2 interpolation flag denotes INTER_CUBIC. -/
theorem pipeline_resample_not_lanczos :
    (SuryaProc.init ⟨256, 256⟩ false none none none).resample
        ≠ cv2_INTER_LANCZOS4 ∧
    (SuryaProc.init ⟨256, 256⟩ false none none none).resample
        = cv2_INTER_CUBIC := by decide

/-- C2 amended: the pipeline resize runs with
`self.resample = Image.Resampling.BILINEAR`, whose numeric value 2 cv2
reads as INTER_CUBIC (a bicubic kernel), not a Lanczos-class flag; the
Lanczos default of `numpy_resize` is overridden at the `process_inner`
call site. -/
theorem pipeline_resample_is_cubic (ms : TargetSize) (al : Bool)
    (f : Option ℚ) (m s : Option (List ℚ)) :
    (SuryaProc.init ms al f m s).resample = Image_Resampling_BILINEAR ∧
    Image_Resampling_BILINEAR = cv2_INTER_CUBIC ∧
    cv2_INTER_CUBIC ≠ cv2_INTER_LANCZOS4 ∧
    numpy_resize_default_interpolation = cv2_INTER_LANCZOS4 :=
  ⟨rfl, rfl, by decide, rfl⟩

/-- C3 counterexample: with no statistics supplied, the defaults are not
the 0.485/0.456/0.406 and 0.229/0.224/0.225 ImageNet triples. -/
theorem default_stats_not_imagenet_default :
    (SuryaProc.init ⟨256, 256⟩ false none none none).image_mean
        ≠ [97/200, 57/125, 203/500] ∧
    (SuryaProc.init ⟨256, 256⟩ false none none none).image_std
        ≠ [229/1000, 28/125, 9/40] := by
  constructor <;>
    · simp only [SuryaProc.init, Option.getD, IMAGENET_STANDARD_MEAN,
        IMAGENET_STANDARD_STD, ne_eq, List.cons.injEq, and_true,
        List.cons_ne_nil, not_and, not_false_iff]
      norm_num

/-- C3 amended: when no mean and standard deviation are supplied at
construction, the defaults are the transformers IMAGENET_STANDARD
constants, mean (0.5, 0.5, 0.5) and std (0.5, 0.5, 0.5); supplied
statistics override them. -/
theorem default_stats_are_imagenet_standard (ms : TargetSize) (al : Bool)
    (f : Option ℚ) :
    (SuryaProc.init ms al f none none).image_mean = [1/2, 1/2, 1/2] ∧
    (SuryaProc.init ms al f none none).image_std = [1/2, 1/2, 1/2] ∧
    ∀ m s : List ℚ,
      (SuryaProc.init ms al f (some m) (some s)).image_mean = m ∧
      (SuryaProc.init ms al f (some m) (some s)).image_std = s :=
  ⟨rfl, rfl, fun m s => ⟨rfl, rfl⟩⟩

/-- C4 counterexample: on the landscape 1x2 image with portrait target
(which triggers rotation), the aligner's result is neither one
counter-clockwise quarter turn (np.rot90 with k=1) nor three clockwise
quarter turns. -/
theorem align_rotation_not_ccw :
    align_long_axis ⟨DType.uint8, [[[0], [1]]]⟩ ⟨1, 2⟩
        ≠ ⟨DType.uint8, rot90 [[[0], [1]]]⟩ ∧
    align_long_axis ⟨DType.uint8, [[[0], [1]]]⟩ ⟨1, 2⟩
        ≠ ⟨DType.uint8, rot90cw (rot90cw (rot90cw [[[0], [1]]]))⟩ := by
  decide

/-- C4 amended: when the aligner rotates, it rotates 90 degrees
clockwise, realized as three applications of numpy's counter-clockwise
quarter-turn primitive (np.rot90(image, 3)), which on a rectangular
image equals a single clockwise quarter turn (one 270-degree
counter-clockwise rotation). -/
theorem align_rotation_is_clockwise (image : NDArr) (size : TargetSize)
    (w : Nat) (hrect : ∀ row ∈ image.data, row.length = w)
    (hne : image.data ≠ [])
    (hcond : (size.width < size.height ∧ dim0 image < dim1 image) ∨
      (size.height < size.width ∧ dim1 image < dim0 image)) :
    align_long_axis image size = ⟨image.dtype, rot90cw image.data⟩ ∧
    align_long_axis image size
      = ⟨image.dtype, rot90 (rot90 (rot90 image.data))⟩ := by
  have h3 : np_rot90 image.data 3 = rot90cw image.data := by
    rw [np_rot90_three]
    exact rot90_three_eq_rot90cw image.data w hrect hne
  constructor
  · simp only [align_long_axis]
    rw [if_pos hcond, h3]
  · simp only [align_long_axis]
    rw [if_pos hcond, np_rot90_three]

/-- Witness for C4 amended at the landscape 1x2 image and portrait
target. -/
theorem align_rotation_is_clockwise_witness :
    align_long_axis ⟨DType.uint8, [[[0], [1]]]⟩ ⟨1, 2⟩
        = ⟨DType.uint8, rot90cw [[[0], [1]]]⟩ ∧
    align_long_axis ⟨DType.uint8, [[[0], [1]]]⟩ ⟨1, 2⟩
        = ⟨DType.uint8, rot90 (rot90 (rot90 [[[0], [1]]]))⟩ :=
  align_rotation_is_clockwise ⟨DType.uint8, [[[0], [1]]]⟩ ⟨1, 2⟩ 2
    (by decide) (by decide) (by decide)

/-- C5: the aligner rotates exactly under the strict opposite-aspect
condition, leaves square images and square targets unrotated, and with
the alignment flag disabled `process_inner` hands the batch unchanged to
the resize tail. -/
theorem align_condition_characterization (image : NDArr)
    (size : TargetSize) (proc : SuryaProc) (img0 : NDArr)
    (rest : List NDArr) (hflag : proc.do_align_long_axis = false)
    (h3 : dim2 img0 = 3) :
    ((size.width < size.height ∧ dim0 image < dim1 image) ∨
        (size.height < size.width ∧ dim1 image < dim0 image) →
      align_long_axis image size = ⟨image.dtype, np_rot90 image.data 3⟩) ∧
    (¬((size.width < size.height ∧ dim0 image < dim1 image) ∨
        (size.height < size.width ∧ dim1 image < dim0 image)) →
      align_long_axis image size = image) ∧
    (dim0 image = dim1 image → align_long_axis image size = image) ∧
    (size.width = size.height → align_long_axis image size = image) ∧
    process_inner proc (img0 :: rest)
      = resizeToNormalize proc (img0 :: rest) := by
  refine ⟨?_, ?_, ?_, ?_, ?_⟩
  · intro hcond
    simp only [align_long_axis]
    rw [if_pos hcond]
  · intro hcond
    simp only [align_long_axis]
    rw [if_neg hcond]
  · intro hsq
    simp only [align_long_axis]
    rw [if_neg (by omega)]
  · intro hsq
    simp only [align_long_axis]
    rw [if_neg (by omega)]
  · simp only [process_inner, hflag]
    rw [if_neg (by omega)]
    simp

/-- Witness for C5 at a concrete landscape image, portrait target, and a
flag-disabled processor on a singleton RGB batch. -/
theorem align_condition_characterization_witness :
    ((1 < 2 ∧ dim0 ⟨DType.uint8, [[[0], [1]]]⟩ < dim1 ⟨DType.uint8, [[[0], [1]]]⟩) ∨
        (2 < 1 ∧ dim1 ⟨DType.uint8, [[[0], [1]]]⟩ < dim0 ⟨DType.uint8, [[[0], [1]]]⟩) →
      align_long_axis ⟨DType.uint8, [[[0], [1]]]⟩ ⟨1, 2⟩
        = ⟨DType.uint8, np_rot90 [[[0], [1]]] 3⟩) ∧
    (¬((1 < 2 ∧ dim0 ⟨DType.uint8, [[[0], [1]]]⟩ < dim1 ⟨DType.uint8, [[[0], [1]]]⟩) ∨
        (2 < 1 ∧ dim1 ⟨DType.uint8, [[[0], [1]]]⟩ < dim0 ⟨DType.uint8, [[[0], [1]]]⟩)) →
      align_long_axis ⟨DType.uint8, [[[0], [1]]]⟩ ⟨1, 2⟩ = ⟨DType.uint8, [[[0], [1]]]⟩) ∧
    (dim0 ⟨DType.uint8, [[[0], [1]]]⟩ = dim1 ⟨DType.uint8, [[[0], [1]]]⟩ →
      align_long_axis ⟨DType.uint8, [[[0], [1]]]⟩ ⟨1, 2⟩ = ⟨DType.uint8, [[[0], [1]]]⟩) ∧
    ((1 : Nat) = 2 →
      align_long_axis ⟨DType.uint8, [[[0], [1]]]⟩ ⟨1, 2⟩ = ⟨DType.uint8, [[[0], [1]]]⟩) ∧
    process_inner ⟨⟨1, 1⟩, false, 2, 1, [0, 0, 0], [1, 1, 1]⟩
        [⟨DType.uint8, [[[5, 6, 7]]]⟩]
      = resizeToNormalize ⟨⟨1, 1⟩, false, 2, 1, [0, 0, 0], [1, 1, 1]⟩
          [⟨DType.uint8, [[[5, 6, 7]]]⟩] :=
  align_condition_characterization ⟨DType.uint8, [[[0], [1]]]⟩ ⟨1, 2⟩
    ⟨⟨1, 1⟩, false, 2, 1, [0, 0, 0], [1, 1, 1]⟩ ⟨DType.uint8, [[[5, 6, 7]]]⟩ []
    rfl (by decide)

/-- C6: for nonnegative width and height deltas, `pad_image` assigns
`pad_left = dw / 2`, `pad_right = dw - pad_left`, `pad_top = dh / 2`,
`pad_bottom = dh - pad_top`; even deltas split equally, odd deltas put
the smaller half on the top/left and the larger on the bottom/right. -/
theorem pad_image_split (image : NDArr) (size : TargetSize) (v : ℚ)
    (dw dh : Nat) (hw : size.width = dim2 image + dw)
    (hh : size.height = dim1 image + dh) :
    pad_image image size v = Except.ok ⟨image.dtype,
      image.data.map (padPlane (dh / 2) (dh - dh / 2) (dw / 2)
        (dw - dw / 2) v (dim2 image))⟩ ∧
    dw / 2 + (dw - dw / 2) = dw ∧ dh / 2 + (dh - dh / 2) = dh ∧
    dw / 2 ≤ dw - dw / 2 ∧ dh / 2 ≤ dh - dh / 2 ∧
    (dw % 2 = 0 → dw / 2 = dw - dw / 2) ∧
    (dh % 2 = 0 → dh / 2 = dh - dh / 2) ∧
    (dw % 2 = 1 → dw / 2 < dw - dw / 2) ∧
    (dh % 2 = 1 → dh / 2 < dh - dh / 2) := by
  refine ⟨?_, by omega, by omega, by omega, by omega,
    fun hpar => by omega, fun hpar => by omega,
    fun hpar => by omega, fun hpar => by omega⟩
  have e1 : size.width - dim2 image = dw := by omega
  have e2 : size.height - dim1 image = dh := by omega
  rw [pad_image_eq_ok (by omega) (by omega), e1, e2]

/-- Witness for C6: a 1x1 single-plane image padded to a 4x2 target
(odd width delta 3, odd height delta 1). -/
theorem pad_image_split_witness :
    pad_image ⟨DType.uint8, [[[7]]]⟩ ⟨4, 2⟩ 255 = Except.ok ⟨DType.uint8,
      [[[7]]].map (padPlane (1 / 2) (1 - 1 / 2) (3 / 2) (3 - 3 / 2) 255
        (dim2 ⟨DType.uint8, [[[7]]]⟩))⟩ ∧
    3 / 2 + (3 - 3 / 2) = 3 ∧ 1 / 2 + (1 - 1 / 2) = 1 ∧
    3 / 2 ≤ 3 - 3 / 2 ∧ 1 / 2 ≤ 1 - 1 / 2 ∧
    (3 % 2 = 0 → 3 / 2 = 3 - 3 / 2) ∧
    (1 % 2 = 0 → 1 / 2 = 1 - 1 / 2) ∧
    (3 % 2 = 1 → 3 / 2 < 3 - 3 / 2) ∧
    ((1 : Nat) % 2 = 1 → 1 / 2 < 1 - 1 / 2) :=
  pad_image_split ⟨DType.uint8, [[[7]]]⟩ ⟨4, 2⟩ 255 3 1 (by decide) (by decide)

/-- C7 counterexample: a 4-channel image in the second slot of the batch
does not trip the channel assertion; the run fails only later, with the
ValueError from the channel-count check of the normalize stage. -/
theorem later_bad_channel_no_assertion :
    dim2 (⟨DType.uint8, [[[9, 9, 9, 9]]]⟩ : NDArr) ≠ 3 ∧
    process_inner (SuryaProc.init ⟨1, 1⟩ false none none none)
        [⟨DType.uint8, [[[5, 5, 5]]]⟩, ⟨DType.uint8, [[[9, 9, 9, 9]]]⟩]
      = Except.error PErr.valueError ∧
    process_inner (SuryaProc.init ⟨1, 1⟩ false none none none)
        [⟨DType.uint8, [[[5, 5, 5]]]⟩, ⟨DType.uint8, [[[9, 9, 9, 9]]]⟩]
      ≠ Except.error PErr.assertionError := by decide

/-- C7 amended: only the first image of the batch is checked by the
3-channel assertion, which then aborts before any processing; a
non-3-channel rectangular image anywhere in the batch still prevents any
result from being returned when the configured mean is a 3-vector, but
through the normalize stage rather than the assertion. -/
theorem channel_check_first_only (proc : SuryaProc) (img0 : NDArr)
    (rest : List NDArr) :
    (dim2 img0 ≠ 3 →
      process_inner proc (img0 :: rest) = Except.error PErr.assertionError) ∧
    (proc.image_mean.length = 3 →
      (∃ img ∈ img0 :: rest, 1 ≤ dim0 img ∧ 1 ≤ dim1 img ∧
        HasShape img (dim0 img) (dim1 img) (dim2 img) ∧ dim2 img ≠ 3) →
      ∀ outs, process_inner proc (img0 :: rest) ≠ Except.ok outs) := by
  constructor
  · intro hch
    simp only [process_inner]
    rw [if_pos hch]
  · rintro hmean ⟨img, himg, h0, h1, hrect, hch⟩ outs hok
    obtain ⟨images1, hrtn, hcase, -⟩ := process_inner_ok_inv hok
    have hkey := resizeToNormalize_ok_forall_dim0 hrtn hmean
    rcases hcase with ⟨-, rfl⟩ | ⟨-, rfl⟩
    · have hmem : align_long_axis img proc.max_size ∈
          (img0 :: rest).map (fun image =>
            align_long_axis image proc.max_size) :=
        List.mem_map_of_mem _ himg
      have hd := hkey _ hmem
      rw [dim0_numpy_resize] at hd
      rcases Nat.eq_zero_or_pos proc.max_size.width with hzw | hpw
      · rw [dim2_cv2_resize_zero _ _ (Or.inl hzw)] at hd
        exact absurd hd (by omega)
      rcases Nat.eq_zero_or_pos proc.max_size.height with hzh | hph
      · rw [dim2_cv2_resize_zero _ _ (Or.inr hzh)] at hd
        exact absurd hd (by omega)
      rw [dim2_cv2_resize_pos _ _ hpw hph] at hd
      rw [dim2_align_long_axis hrect h0 h1] at hd
      exact hch hd
    · have hd := hkey img himg
      rw [dim0_numpy_resize] at hd
      rcases Nat.eq_zero_or_pos proc.max_size.width with hzw | hpw
      · rw [dim2_cv2_resize_zero _ _ (Or.inl hzw)] at hd
        exact absurd hd (by omega)
      rcases Nat.eq_zero_or_pos proc.max_size.height with hzh | hph
      · rw [dim2_cv2_resize_zero _ _ (Or.inr hzh)] at hd
        exact absurd hd (by omega)
      rw [dim2_cv2_resize_pos _ _ hpw hph] at hd
      exact hch hd

/-- Witness for C7 amended: a 4-channel image in the FIRST slot does trip
the assertion. -/
theorem channel_check_first_only_witness :
    process_inner (SuryaProc.init ⟨1, 1⟩ false none none none)
        [⟨DType.uint8, [[[9, 9, 9, 9]]]⟩]
      = Except.error PErr.assertionError :=
  (channel_check_first_only (SuryaProc.init ⟨1, 1⟩ false none none none)
    ⟨DType.uint8, [[[9, 9, 9, 9]]]⟩ []).1 (by decide)

/-- C8: `pad_image` raises the assertion error exactly when the target is
smaller than the input in either dimension, and succeeds whenever the
target is at least as large in both, producing the centered enlargement
onto the target canvas (shape `(c, target_height, target_width)`, fill
rows/columns around the original rows). -/
theorem pad_image_domain (image : NDArr) (size : TargetSize) (v : ℚ)
    (c h w : Nat) (hs : HasShape image c h w) (hc : 1 ≤ c) (hh : 1 ≤ h) :
    (size.width < w ∨ size.height < h →
      pad_image image size v = Except.error PErr.assertionError) ∧
    (w ≤ size.width → h ≤ size.height →
      ∃ out, pad_image image size v = Except.ok out ∧
        out.dtype = image.dtype ∧
        HasShape out c size.height size.width ∧
        out.data = image.data.map (padPlane ((size.height - h) / 2)
          ((size.height - h) - (size.height - h) / 2)
          ((size.width - w) / 2)
          ((size.width - w) - (size.width - w) / 2) v w)) := by
  have hd1 : dim1 image = h := dim1_eq_of_hasShape hs hc
  have hd2 : dim2 image = w := dim2_eq_of_hasShape hs hc hh
  constructor
  · intro hlt
    apply pad_image_error
    rw [hd1, hd2]
    omega
  · intro hle1 hle2
    have hok := @pad_image_eq_ok image size v (by omega) (by omega)
    refine ⟨_, hok, rfl, pad_image_ok_shape hs hc hok, ?_⟩
    rw [hd1, hd2]

/-- Witness for C8: a single-plane 1x1 image enlarged to a 2x3 canvas. -/
theorem pad_image_domain_witness :
    ((2 : Nat) < 1 ∨ (3 : Nat) < 1 →
      pad_image ⟨DType.uint8, [[[7]]]⟩ ⟨2, 3⟩ 255
        = Except.error PErr.assertionError) ∧
    ((1 : Nat) ≤ 2 → (1 : Nat) ≤ 3 →
      ∃ out, pad_image ⟨DType.uint8, [[[7]]]⟩ ⟨2, 3⟩ 255 = Except.ok out ∧
        out.dtype = DType.uint8 ∧
        HasShape out 1 3 2 ∧
        out.data = [[[7]]].map (padPlane ((3 - 1) / 2)
          ((3 - 1) - (3 - 1) / 2) ((2 - 1) / 2)
          ((2 - 1) - (2 - 1) / 2) 255 1)) :=
  pad_image_domain ⟨DType.uint8, [[[7]]]⟩ ⟨2, 3⟩ 255 1 1 1
    (by decide) (by decide) (by decide)

/-- C9: the rescale statement multiplies every sample by the configured
factor (default 1/255) with the multiplication performed on the float64
cast before narrowing back to float32, and in the pipeline it runs after
padding and before normalization as a separate map. -/
theorem rescale_double_precision (proc : SuryaProc) (a : NDArr) (f : ℚ)
    (images1 images4 : List NDArr)
    (hhead : dim0 ((images1.map (fun img =>
      numpy_resize img proc.max_size proc.resample)).headD default) = 3)
    (hpad : mapExcept (fun image =>
        pad_image image proc.max_size RECOGNITION_PAD_VALUE)
        ((images1.map (fun img =>
          numpy_resize img proc.max_size proc.resample)).map
          (fun img => astype DType.float32 img)) = Except.ok images4) :
    rescaleStep f a
        = astype DType.float32 (scalarMul f (astype DType.float64 a)) ∧
    (astype DType.float64 a).dtype = DType.float64 ∧
    (scalarMul f (astype DType.float64 a)).dtype = DType.float64 ∧
    (rescaleStep f a).dtype = DType.float32 ∧
    (rescaleStep f a).data
        = a.data.map (fun p => p.map (fun r => r.map (fun x => x * f))) ∧
    (SuryaProc.init proc.max_size proc.do_align_long_axis none none
      none).rescale_factor = 1/255 ∧
    resizeToNormalize proc images1
        = mapExcept (fun img => normalize img proc.image_mean proc.image_std)
            (images4.map (fun img => rescaleStep proc.rescale_factor img)) := by
  refine ⟨rfl, rfl, rfl, rfl, rfl, rfl, ?_⟩
  simp only [resizeToNormalize]
  rw [if_neg (by omega)]
  rw [hpad]
  rfl

/-- Witness for C9 with a singleton batch and trivial factor. -/
theorem rescale_double_precision_witness :
    rescaleStep 1 ⟨DType.float32, [[[2]]]⟩
        = astype DType.float32 (scalarMul 1
            (astype DType.float64 ⟨DType.float32, [[[2]]]⟩)) ∧
    (astype DType.float64 (⟨DType.float32, [[[2]]]⟩ : NDArr)).dtype
        = DType.float64 ∧
    (scalarMul 1 (astype DType.float64
        (⟨DType.float32, [[[2]]]⟩ : NDArr))).dtype = DType.float64 ∧
    (rescaleStep 1 ⟨DType.float32, [[[2]]]⟩).dtype = DType.float32 ∧
    (rescaleStep 1 ⟨DType.float32, [[[2]]]⟩).data
        = [[[(2 : ℚ)]]].map (fun p => p.map (fun r =>
            r.map (fun x => x * 1))) ∧
    (SuryaProc.init (⟨⟨1, 1⟩, false, 2, 1, [0, 0, 0], [1, 1, 1]⟩ :
        SuryaProc).max_size
      (⟨⟨1, 1⟩, false, 2, 1, [0, 0, 0], [1, 1, 1]⟩ :
        SuryaProc).do_align_long_axis none none none).rescale_factor
        = 1/255 ∧
    resizeToNormalize ⟨⟨1, 1⟩, false, 2, 1, [0, 0, 0], [1, 1, 1]⟩
        [⟨DType.uint8, [[[5, 6, 7]]]⟩]
      = mapExcept (fun img => normalize img
          (⟨⟨1, 1⟩, false, 2, 1, [0, 0, 0], [1, 1, 1]⟩ :
            SuryaProc).image_mean
          (⟨⟨1, 1⟩, false, 2, 1, [0, 0, 0], [1, 1, 1]⟩ :
            SuryaProc).image_std)
          ([⟨DType.float32, [[[5]], [[6]], [[7]]]⟩].map (fun img =>
            rescaleStep (⟨⟨1, 1⟩, false, 2, 1, [0, 0, 0], [1, 1, 1]⟩ :
              SuryaProc).rescale_factor img)) :=
  rescale_double_precision ⟨⟨1, 1⟩, false, 2, 1, [0, 0, 0], [1, 1, 1]⟩
    ⟨DType.float32, [[[2]]]⟩ 1 [⟨DType.uint8, [[[5, 6, 7]]]⟩]
    [⟨DType.float32, [[[5]], [[6]], [[7]]]⟩] (by decide) (by decide)

/-- C10: with alignment enabled, `process_inner` asserts width >= height
on every aligned image whatever the target orientation; under a
portrait target a portrait image is left unrotated, so any batch
containing one fails with the assertion error and the pipeline cannot
process it. -/
theorem portrait_target_portrait_fatal (proc : SuryaProc)
    (img0 : NDArr) (rest : List NDArr)
    (hflag : proc.do_align_long_axis = true)
    (h3 : dim2 img0 = 3)
    (hpt : proc.max_size.width < proc.max_size.height)
    (hportrait : ∃ img ∈ img0 :: rest, dim1 img < dim0 img) :
    process_inner proc (img0 :: rest) = Except.error PErr.assertionError := by
  obtain ⟨img, himg, hiw⟩ := hportrait
  have halign : align_long_axis img proc.max_size = img := by
    simp only [align_long_axis]
    rw [if_neg (by omega)]
  simp only [process_inner, hflag, if_true]
  rw [if_neg (by omega)]
  rw [if_neg]
  intro hall
  rw [List.all_eq_true] at hall
  have := hall (align_long_axis img proc.max_size) (List.mem_map_of_mem _ himg)
  rw [halign] at this
  simp only [decide_eq_true_eq] at this
  omega

/-- Witness for C10: a 2x1 portrait RGB image with the portrait 1x2
target and alignment enabled. -/
theorem portrait_target_portrait_fatal_witness :
    process_inner ⟨⟨1, 2⟩, true, 2, 1, [0, 0, 0], [1, 1, 1]⟩
        [⟨DType.uint8, [[[1, 2, 3]], [[4, 5, 6]]]⟩]
      = Except.error PErr.assertionError :=
  portrait_target_portrait_fatal
    ⟨⟨1, 2⟩, true, 2, 1, [0, 0, 0], [1, 1, 1]⟩
    ⟨DType.uint8, [[[1, 2, 3]], [[4, 5, 6]]]⟩ [] rfl (by decide) (by decide)
    ⟨⟨DType.uint8, [[[1, 2, 3]], [[4, 5, 6]]]⟩, by decide, by decide⟩

end Surya
